import Mathlib

/-!
Shallow embedding of `src/main.rs` of the `t-downloader` repository
(an interactive front end around the `yt-dlp` binary), together with
theorems checking the specification's claims about it.

Strings are modelled as Lean `String`s (lists of Unicode scalar values,
matching Rust `&str`).  Whitespace classification is the ASCII fragment,
which coincides with Rust's `char::is_whitespace` on the ASCII listing
text the program consumes.  A Rust panic (slice index out of range,
arithmetic overflow, an explicit `panic!`) is modelled as the `error` /
`panicked` branch of an explicit result type, distinct from the
recoverable `anyhow::bail!` errors, which are modelled as ordinary error
values.
-/

namespace TDownloader

/-! ### String utilities mirroring the Rust standard library -/

/-- Rust `char::is_whitespace`, restricted to the ASCII whitespace characters. -/
def isWs (c : Char) : Bool := c.isWhitespace

/-- Worker for `splitWhitespace`: `acc` holds the current word reversed. -/
def wordsAux : List Char → List Char → List String
  | [], [] => []
  | [], acc => [String.mk acc.reverse]
  | c :: cs, acc =>
    if isWs c then
      match acc with
      | [] => wordsAux cs []
      | _ :: _ => String.mk acc.reverse :: wordsAux cs []
    else wordsAux cs (c :: acc)

/-- Rust `str::split_whitespace`: maximal non-whitespace runs, no empties. -/
def splitWhitespace (s : String) : List String := wordsAux s.toList []

/-- Worker for `splitChar`. -/
def splitCharAux (sep : Char) : List Char → List Char → List String
  | [], acc => [String.mk acc.reverse]
  | c :: cs, acc =>
    if c = sep then String.mk acc.reverse :: splitCharAux sep cs []
    else splitCharAux sep cs (c :: acc)

/-- Rust `str::split(sep)` for a single-`char` pattern (keeps empties). -/
def splitChar (sep : Char) (s : String) : List String := splitCharAux sep s.toList []

/-- Test whether `hay` starts with `pat` (on character lists). -/
def startsWithL : List Char → List Char → Bool
  | _, [] => true
  | [], _ :: _ => false
  | a :: as, b :: bs => a = b && startsWithL as bs

/-- Rust `str::starts_with` for a string pattern. -/
def strStartsWith (s pat : String) : Bool := startsWithL s.toList pat.toList

/-- Test whether `pat` occurs as a contiguous substring of `hay`. -/
def hasSubstr (hay pat : List Char) : Bool :=
  match hay with
  | [] => startsWithL [] pat
  | _ :: t => startsWithL hay pat || hasSubstr t pat

/-- Rust `str::contains` for a string pattern. -/
def strContains (s pat : String) : Bool := hasSubstr s.toList pat.toList

/-- Rust `str::trim_start_matches(c)`: strip every leading copy of `c`. -/
def trimLeadChar (c : Char) : List Char → List Char
  | [] => []
  | x :: xs => if x = c then trimLeadChar c xs else x :: xs

/-- Rust `str::trim_end_matches(c)`: strip every trailing copy of `c`. -/
def trimTrailChar (c : Char) (l : List Char) : List Char :=
  (trimLeadChar c l.reverse).reverse

/-- Fuel-driven worker for `stripRep`; the fuel `n` starts at the length of
the subject string, which bounds the number of strips. -/
def stripRepAux (pat : List Char) : Nat → List Char → List Char
  | 0, s => s
  | n + 1, s =>
    if !pat.isEmpty && startsWithL s pat then stripRepAux pat n (s.drop pat.length)
    else s

/-- Rust `str::trim_start_matches(pat)` for a non-empty string pattern:
strip every leading occurrence of `pat`. -/
def stripRep (pat : List Char) (s : List Char) : List Char := stripRepAux pat s.length s

/-- All-digit run parsed as a decimal numeral (`none` when empty or mixed). -/
def parseNatDigits (cs : List Char) : Option Nat :=
  if cs.isEmpty then none
  else if cs.all (fun c => c.isDigit) then
    some (cs.foldl (fun n c => n * 10 + (c.toNat - 48)) 0)
  else none

/-- Rust `str::parse::<u32>()`: optional leading `+`, one or more decimal
digits, rejecting values outside `u32`. -/
def parseU32 (s : String) : Option Nat :=
  let cs := s.toList
  let cs := if cs.head? = some '+' then cs.tail else cs
  match parseNatDigits cs with
  | some n => if n < 2 ^ 32 then some n else none
  | none => none

/-! ### The format-descriptor record and its line parser -/

/-- Rust `struct FormatOption` from `main.rs`. -/
structure FormatOption where
  id : String
  format_description : String
  resolution : Option Nat
  is_video : Bool
  is_audio : Bool
  extension : String
  filesize : Option String
deriving DecidableEq

/-- The three-character sequence the source strips as an "approximately"
marker: the mis-encoded `U+2248` showing up in the Rust literal as the
characters `U+00E2 U+2030 U+02C6`. -/
def approxChars : List Char := ['â', '‰', 'ˆ']

/-- The size-value token after the source's two `trim_start_matches` calls:
leading `~` characters, then leading copies of `approxChars`, stripped. -/
def stripApprox (s : String) : String :=
  String.mk (stripRep approxChars (trimLeadChar '~' s.toList))

/-- Is this token one of the size unit markers (`p == "MiB" || p == "KiB" ||
p == "GiB"` in the source)? -/
def isUnitTok (p : String) : Bool := p == "MiB" || p == "KiB" || p == "GiB"

/-- Rust `FormatOption::parse_format_line`.  `Except.error` models a Rust panic:
the source computes `parts[2..size_pos-1]`, which panics whenever the first
size-unit token sits at index 0, 1 or 2 (slice start past end, or `usize`
underflow).  `Except.ok none` is the source's `return None` for short lines. -/
def parse_format_line (line : String) : Except String (Option FormatOption) :=
  let parts := splitWhitespace line
  if parts.length < 3 then Except.ok none
  else
    let id := parts.getD 0 ""
    let extension := parts.getD 1 ""
    let resolution :=
      (parts.find? (fun p => p.toList.contains 'x')).bind
        (fun res => ((splitChar 'x' res).get? 1).bind parseU32)
    let is_video := !strContains line "audio only"
    let is_audio := strContains line "audio only"
    let sizePos := parts.findIdx? isUnitTok
    let filesize :=
      match sizePos with
      | some p =>
        if p > 0 then some (stripApprox (parts.getD (p - 1) "") ++ " " ++ parts.getD p "")
        else none
      | none => none
    match sizePos with
    | some p =>
      if p < 3 then Except.error "slice index out of range"
      else
        Except.ok (some
          { id, extension, resolution, is_video, is_audio, filesize
            format_description := " ".intercalate ((parts.drop 2).take (p - 3)) })
    | none =>
      Except.ok (some
        { id, extension, resolution, is_video, is_audio, filesize
          format_description := " ".intercalate (parts.drop 2) })

/-- One Rust line with its trailing carriage return removed, as
`str::lines` does. -/
def dropCR (s : String) : String :=
  if s.toList.getLast? = some '\r' then String.mk s.toList.dropLast else s

/-- Rust `str::lines`: split on newline, no trailing empty line, each line
stripped of one trailing carriage return. -/
def rustLines (s : String) : List String :=
  let l := splitChar '\n' s
  let l := if l.getLast? = some "" then l.dropLast else l
  l.map dropCR

/-- The skip test of `parse_available_formats`: header lines, `[info]` log
lines, and blank lines (`line.trim().is_empty()` holds exactly when every
character is whitespace). -/
def skipLine (line : String) : Bool :=
  strStartsWith line "ID" || strStartsWith line "[info]" ||
    line.toList.all isWs

/-- Worker for `parse_available_formats`; a panic in any line's parse
(`Except.error`) aborts the whole traversal, as a Rust panic does. -/
def parseLines : List String → Except String (List FormatOption)
  | [] => Except.ok []
  | line :: rest =>
    if skipLine line then parseLines rest
    else
      match parse_format_line line with
      | Except.error e => Except.error e
      | Except.ok none => parseLines rest
      | Except.ok (some f) => (parseLines rest).map (fun fs => f :: fs)

/-- Function `parse_available_formats` from `main.rs`. -/
def parse_available_formats (formats_str : String) : Except String (List FormatOption) :=
  parseLines (rustLines formats_str)

/-! ### Classifier / selector (the body of `download_media`) -/

/-- The audio side of the partition at lines 190–196 of `main.rs`:
descriptors with `is_audio && !is_video`, listing order preserved. -/
def audioFormatsOf (fmts : List FormatOption) : List FormatOption :=
  fmts.filter (fun f => f.is_audio && !f.is_video)

/-- The video side of the partition: descriptors with
`is_video && !is_audio`, listing order preserved. -/
def videoFormatsOf (fmts : List FormatOption) : List FormatOption :=
  fmts.filter (fun f => f.is_video && !f.is_audio)

/-- Best-audio selection (lines 220–222):
`audio.iter().find(|f| f.extension == "m4a").or_else(|| audio.first())`. -/
def best_audio (audio : List FormatOption) : Option FormatOption :=
  (audio.find? (fun f => f.extension == "m4a")).orElse (fun _ => audio.head?)

/-- Best-audio selection including the source's
`unwrap_or_else(|| panic!("No audio formats found"))` (line 223); the
`error` branch models the process-aborting panic. -/
def bestAudioOrPanic (audio : List FormatOption) : Except String FormatOption :=
  match best_audio audio with
  | some f => Except.ok f
  | none => Except.error "No audio formats found"

/-- The `BTreeMap<Option<u32>, _>` key order: `None` sorts below every
`Some`, and `Some` keys sort by value. -/
def optLt : Option Nat → Option Nat → Bool
  | none, none => false
  | none, some _ => true
  | some _, none => false
  | some a, some b => a < b

/-- Ordered insertion of a key into the sorted, duplicate-free key list of
the `BTreeMap`. -/
def insertKey (k : Option Nat) : List (Option Nat) → List (Option Nat)
  | [] => [k]
  | x :: xs =>
    if optLt k x then k :: x :: xs
    else if k = x then x :: xs
    else x :: insertKey k xs

/-- The sorted set of resolution keys inserted by the grouping loop. -/
def videoResolutionKeys (vids : List FormatOption) : List (Option Nat) :=
  vids.foldl (fun ks f => insertKey f.resolution ks) []

/-- The `video_resolutions` map (lines 187–196) as its ascending-key entry
list; each group keeps the insertion (= listing) order of its members. -/
def video_resolutions (fmts : List FormatOption) : List (Option Nat × List FormatOption) :=
  let vids := videoFormatsOf fmts
  (videoResolutionKeys vids).map (fun k => (k, vids.filter (fun f => f.resolution == k)))

/-- A token ends with the character `c`. -/
def endsWithChar (w : String) (c : Char) : Bool := w.toList.getLast? = some c

/-- The `max_by_key` key of lines 232–239: the first whitespace token of
`format_description` ending in `k`, its trailing `k`s stripped, parsed as
`u32`, defaulting to 0. -/
def bitrateKey (f : FormatOption) : Nat :=
  (((splitWhitespace f.format_description).find? (fun w => endsWithChar w 'k')).bind
    (fun w => parseU32 (String.mk (trimTrailChar 'k' w.toList)))).getD 0

/-- Rust `Iterator::max_by_key`: `none` on the empty list, otherwise the
LAST element attaining the maximal key. -/
def maxByKeyLast (key : FormatOption → Nat) : List FormatOption → Option FormatOption
  | [] => none
  | x :: xs =>
    match maxByKeyLast key xs with
    | none => some x
    | some m => if key x > key m then some x else some m

/-- The inner filter of lines 230–231: `f.is_video && f.extension == "mp4"`. -/
def mp4Group (grp : List FormatOption) : List FormatOption :=
  grp.filter (fun f => f.is_video && f.extension == "mp4")

/-- The descriptors of the resolution group keyed `some r`. -/
def resGroup (fmts : List FormatOption) (r : Nat) : List FormatOption :=
  (videoFormatsOf fmts).filter (fun f => f.resolution == some r)

/-- The `mp4_formats` vector right after the two `filter_map`s
(lines 226–245): per ascending resolution key, the best mp4 entry;
groups keyed `None` and groups with no mp4 entry are dropped. -/
def mp4FormatsRaw (fmts : List FormatOption) : List (Nat × FormatOption) :=
  (video_resolutions fmts).filterMap (fun e =>
    e.1.bind (fun res => (maxByKeyLast bitrateKey (mp4Group e.2)).map (fun f => (res, f))))

/-- Stable insertion for the descending sort of line 248. -/
def insertDesc (x : Nat × FormatOption) : List (Nat × FormatOption) → List (Nat × FormatOption)
  | [] => [x]
  | y :: ys => if x.1 ≥ y.1 then x :: y :: ys else y :: insertDesc x ys

/-- The stable `sort_by(|(a,_),(b,_)| b.cmp(a))` of line 248. -/
def sortDesc (l : List (Nat × FormatOption)) : List (Nat × FormatOption) :=
  l.foldr insertDesc []

/-- Vector `mp4_formats` after sorting by resolution descending and
`truncate(5)` (lines 248–249): the video quality menu. -/
def mp4Menu (fmts : List FormatOption) : List (Nat × FormatOption) :=
  (sortDesc (mp4FormatsRaw fmts)).take 5

/-! ### Event-trace model of `main` / `download_media`

The observable actions named by the spec's ordering claims — interactive
prompts, output-directory creation, the dependency check, and the three
kinds of `yt-dlp` invocations — are recorded as an event list; the
process result distinguishes success, a recoverable `bail!` error, and a
process-aborting panic. -/

/-- One observable action of the program. -/
inductive Ev
  | promptUrl
  | promptDir
  | createDir
  | depCheck
  | procList
  | promptType
  | promptQuality
  | promptAudio
  | promptCustom
  | procDownload (fmt : String)
  | procRetry (fmt : String)
deriving DecidableEq

/-- The way a run ends: success, a recoverable error (`bail!`), or a
process abort (`panic!` or an out-of-range slice). -/
inductive Outcome
  | ok
  | err (msg : String)
  | panicked (msg : String)
deriving DecidableEq

/-- The interactive choices a run consumes: the download-type menu index
(0 = Video), the video quality menu index, the audio menu index, and the
free-text custom format string. -/
structure UserSel where
  typeSel : Nat
  qualSel : Nat
  audioSel : Nat
  customFmt : String
deriving DecidableEq

/-- The retry format spec of the video path (line 323). -/
def videoRetryFmt : String := "bestvideo+bestaudio/best"

/-- The retry format spec of the audio path (line 426). -/
def audioRetryFmt : String := "bestaudio"

/-- The video path's terminal error message (line 333). -/
def vidFailMsg : String := "Download failed after retry. Please try a different format or URL."

/-- The audio path's terminal error message (line 437). -/
def audFailMsg : String := "Audio download failed after retry. Please try a different format or URL."

/-- The primary-download / single-retry block (lines 314–335 and 417–439):
run the primary invocation; on non-zero exit run one retry with the fixed
broadened spec; on a second non-zero exit, `bail!`.  `s1`/`s2` are the
success bits of the two invocations' exit statuses. -/
def runWithRetry (fmt retryFmt failMsg : String) (s1 s2 : Bool) : List Ev × Outcome :=
  if s1 then ([Ev.procDownload fmt], Outcome.ok)
  else if s2 then ([Ev.procDownload fmt, Ev.procRetry retryFmt], Outcome.ok)
  else ([Ev.procDownload fmt, Ev.procRetry retryFmt], Outcome.err failMsg)

/-- A placeholder descriptor for the (prompt-layer-guaranteed-unreachable)
out-of-range menu index in `List.getD`. -/
def dummyFmt : FormatOption :=
  { id := "", format_description := "", resolution := none
    is_video := false, is_audio := false, extension := "", filesize := none }

/-- The event trace and outcome of `download_media` (lines 162–447), as a
function of the tool's presence, the listing text the `-F` call returns,
the user's menu choices, and the two download exit statuses. -/
def downloadMediaTrace (tool : Bool) (formatsText : String) (u : UserSel)
    (s1 s2 : Bool) : List Ev × Outcome :=
  if tool = false then ([Ev.depCheck], Outcome.err "yt-dlp not found")
  else
    match parse_available_formats formatsText with
    | Except.error m => ([Ev.depCheck, Ev.procList], Outcome.panicked m)
    | Except.ok parsed =>
      let audio := audioFormatsOf parsed
      let evs0 := [Ev.depCheck, Ev.procList, Ev.promptType]
      if u.typeSel = 0 then
        match bestAudioOrPanic audio with
        | Except.error m => (evs0, Outcome.panicked m)
        | Except.ok bestA =>
          let menu := mp4Menu parsed
          if menu.isEmpty then (evs0, Outcome.err "No suitable MP4 formats found")
          else
            let sel := menu.getD u.qualSel (0, dummyFmt)
            let fmtArg := sel.2.id ++ "+" ++ bestA.id
            let run := runWithRetry fmtArg videoRetryFmt vidFailMsg s1 s2
            (evs0 ++ [Ev.promptQuality] ++ run.1, run.2)
      else
        let top := audio.take 5
        let extra : List Ev × String :=
          if u.audioSel < top.length then ([], (top.getD u.audioSel dummyFmt).id)
          else if u.audioSel = top.length then ([], "bestaudio")
          else ([Ev.promptCustom], u.customFmt)
        let run := runWithRetry extra.2 audioRetryFmt audFailMsg s1 s2
        (evs0 ++ [Ev.promptAudio] ++ extra.1 ++ run.1, run.2)

/-- The event trace and outcome of `main` (lines 449–477): the URL prompt
when `--url` is absent, the directory prompt when `--output-dir` is
absent, the output-directory creation, then `download_media`. -/
def mainTrace (urlGiven dirGiven tool : Bool) (formatsText : String) (u : UserSel)
    (s1 s2 : Bool) : List Ev × Outcome :=
  let pre :=
    (if urlGiven then [] else [Ev.promptUrl]) ++
      (if dirGiven then [] else [Ev.promptDir]) ++ [Ev.createDir]
  let dm := downloadMediaTrace tool formatsText u s1 s2
  (pre ++ dm.1, dm.2)

/-- Is this event a subprocess invocation? -/
def isProc : Ev → Bool
  | Ev.procList => true
  | Ev.procDownload _ => true
  | Ev.procRetry _ => true
  | _ => false

/-- Is this event a download attempt (primary or retry)? -/
def isDl : Ev → Bool
  | Ev.procDownload _ => true
  | Ev.procRetry _ => true
  | _ => false

/-- Is this event one of the claim C5's "other actions": a prompt, a
directory creation, or a subprocess invocation? -/
def isActionEv : Ev → Bool
  | Ev.depCheck => false
  | _ => true

/-- Events the amended claim C5 allows before the dependency check: the
URL prompt, the directory prompt, and the directory creation. -/
def preDepEv (e : Ev) : Bool :=
  e == Ev.promptUrl || e == Ev.promptDir || e == Ev.createDir

/-- The broadened retry format specification a run uses: the video one
when the type-menu choice is 0, the audio one otherwise. -/
def retryFmtFor (u : UserSel) : String :=
  if u.typeSel = 0 then videoRetryFmt else audioRetryFmt

/-- The terminal failure message a run reports when the retry also
fails. -/
def failMsgFor (u : UserSel) : String :=
  if u.typeSel = 0 then vidFailMsg else audFailMsg

/-! ### Concrete example data and spec-side comparison definitions -/

/-- The descriptor the parser yields for the listing line
"140 m4a audio only 128k". -/
def d140 : FormatOption :=
  { id := "140", format_description := "audio only 128k", resolution := none
    is_video := false, is_audio := true, extension := "m4a", filesize := none }

/-- The audio descriptor with a non-m4a container, as parsed from
"251 webm audio only 160k". -/
def d251 : FormatOption :=
  { id := "251", format_description := "audio only 160k", resolution := none
    is_video := false, is_audio := true, extension := "webm", filesize := none }

/-- The descriptor the parser yields for the listing line
"299 mp4 1920x1080 2500k". -/
def d299 : FormatOption :=
  { id := "299", format_description := "1920x1080 2500k", resolution := some 1080
    is_video := true, is_audio := false, extension := "mp4", filesize := none }

/-- The two-line listing of the spec's end-to-end scenario: one audio line
(id 140, m4a, 128k) and one video line (id 299, mp4, 1920x1080, 2500k). -/
def exListing : String := "140 m4a audio only 128k\n299 mp4 1920x1080 2500k"

/-- The descriptor the parser yields for "140 m4a foo MiB": the token
before the unit marker is not numeric, yet a size string is produced. -/
def d8 : FormatOption :=
  { id := "140", format_description := "", resolution := none
    is_video := true, is_audio := false, extension := "m4a", filesize := some "foo MiB" }

/-- The descriptor the parser yields for "137 mp4 avx_hd 1920x1080 2500k":
the codec-like token `avx_hd` is the first token containing an x, so the
well-formed `1920x1080` further right is never consulted. -/
def dCodec : FormatOption :=
  { id := "137", format_description := "avx_hd 1920x1080 2500k", resolution := none
    is_video := true, is_audio := false, extension := "mp4", filesize := none }

/-- An mp4 video descriptor at height `h` with the given id and
description text. -/
def mkVid (h : Nat) (i desc : String) : FormatOption :=
  { id := i, format_description := desc, resolution := some h
    is_video := true, is_audio := false, extension := "mp4", filesize := none }

/-- Seven mp4 video descriptors at the raw heights
1080, 1080, 720, 480, 360, 240, 144 of the spec's grouping example. -/
def exHeights : List FormatOption :=
  [mkVid 1080 "a" "1000k", mkVid 1080 "b" "2000k", mkVid 720 "c" "800k",
   mkVid 480 "d" "600k", mkVid 360 "e" "400k", mkVid 240 "f" "200k",
   mkVid 144 "g" "100k"]

/-- The filesize field of a successfully parsed line (`none` otherwise). -/
def parsedFilesize (line : String) : Option String :=
  match parse_format_line line with
  | Except.ok (some d) => d.filesize
  | _ => none

/-- The resolution field of a successfully parsed line, wrapped so that a
parse failure is distinguishable from a parsed absent resolution. -/
def parsedResolution (line : String) : Option (Option Nat) :=
  match parse_format_line line with
  | Except.ok (some d) => some d.resolution
  | _ => none

/-- A numeric token in the sense of claim C8's size rule: after stripping
the approximation markers, a nonempty run of decimal digits and periods
containing at least one digit. -/
def isNumericTok (s : String) : Bool :=
  let cs := (stripApprox s).toList
  !cs.isEmpty && cs.all (fun c => c.isDigit || c = '.') && cs.any (fun c => c.isDigit)

/-- Modelled from the spec: claim C8's size rule, producing a size string
exactly when some token equals a unit marker and is preceded by a numeric
token (for comparison against the filesize the source computes). -/
def spec_filesize (parts : List String) : Option String :=
  match parts.findIdx? isUnitTok with
  | some p =>
    if p > 0 && isNumericTok (parts.getD (p - 1) "") then
      some (stripApprox (parts.getD (p - 1) "") ++ " " ++ parts.getD p "")
    else none
  | none => none

/-! ### Characterization of a successful line parse -/

/-- Every field but the description of a successfully parsed descriptor,
expressed directly over the token list of the line. -/
theorem parse_ok_eq {line : String} {d : FormatOption}
    (h : parse_format_line line = Except.ok (some d)) :
    d.id = (splitWhitespace line).getD 0 "" ∧
    d.extension = (splitWhitespace line).getD 1 "" ∧
    d.resolution =
      ((splitWhitespace line).find? (fun p => p.toList.contains 'x')).bind
        (fun res => ((splitChar 'x' res).get? 1).bind parseU32) ∧
    d.is_video = !strContains line "audio only" ∧
    d.is_audio = strContains line "audio only" ∧
    d.filesize =
      (match (splitWhitespace line).findIdx? isUnitTok with
       | some p =>
         if p > 0 then
           some (stripApprox ((splitWhitespace line).getD (p - 1) "") ++ " " ++
             (splitWhitespace line).getD p "")
         else none
       | none => none) := by
  simp only [parse_format_line] at h
  split at h
  · simp at h
  · rcases hS : (splitWhitespace line).findIdx? isUnitTok with _ | p <;>
      simp only [hS] at h
    · simp only [Except.ok.injEq, Option.some.injEq] at h
      subst h
      simp [hS]
    · split at h
      · simp at h
      · simp only [Except.ok.injEq, Option.some.injEq] at h
        subst h
        simp [hS]

/-! ### The claims -/

/-- C1: the claim says `parse_format_line` is total (never fails or
panics) on every line with at least 3 whitespace-separated tokens.  The
code violates this: on the 3-token line "140 m4a MiB" the first size-unit
token sits at index 2, so the source computes the slice
`parts[2..size_pos-1] = parts[2..1]`, which panics.  This theorem
evaluates the embedded code at that failing input. -/
theorem c1_parse_panics_on_three_token_unit_line :
    (splitWhitespace "140 m4a MiB").length = 3 ∧
      parse_format_line "140 m4a MiB" = Except.error "slice index out of range" := by
  exact ⟨rfl, rfl⟩

/-- C2: the claim says that with zero audio descriptors a video download
request yields a recoverable no-audio-formats error.  The code instead
reaches `unwrap_or_else(|| panic!("No audio formats found"))`, aborting
the whole process: on a listing with only a video line and the Video menu
choice, the run ends in the panic outcome, not in any recoverable error
outcome. -/
theorem c2_empty_audio_panics :
    bestAudioOrPanic [] = Except.error "No audio formats found" ∧
      (downloadMediaTrace true "299 mp4 1920x1080 2500k"
          { typeSel := 0, qualSel := 0, audioSel := 0, customFmt := "" } true true).2 =
        Outcome.panicked "No audio formats found" ∧
      ∀ m, (downloadMediaTrace true "299 mp4 1920x1080 2500k"
          { typeSel := 0, qualSel := 0, audioSel := 0, customFmt := "" } true true).2 ≠
        Outcome.err m := by
  refine ⟨rfl, ?_, ?_⟩
  · rfl
  · intro m
    have h : (downloadMediaTrace true "299 mp4 1920x1080 2500k"
        { typeSel := 0, qualSel := 0, audioSel := 0, customFmt := "" } true true).2 =
        Outcome.panicked "No audio formats found" := rfl
    rw [h]
    intro hc
    cases hc

/-- C6: for every successfully parsed descriptor, `is_audio` holds
exactly when the whole line contains the substring "audio only", and
`is_video` is its negation, so the two flags are never both true. -/
theorem c6_audio_video_flags (line : String) (d : FormatOption)
    (h : parse_format_line line = Except.ok (some d)) :
    d.is_audio = strContains line "audio only" ∧
      d.is_video = !d.is_audio ∧ ¬(d.is_video = true ∧ d.is_audio = true) := by
  obtain ⟨-, -, -, hv, ha, -⟩ := parse_ok_eq h
  refine ⟨ha, by rw [hv, ha], ?_⟩
  rintro ⟨h1, h2⟩
  rw [hv] at h1
  rw [ha] at h2
  rw [h2] at h1
  cases h1

/-- Witness for C6 at the audio line of the end-to-end listing. -/
theorem c6_audio_video_flags_witness :
    d140.is_audio = strContains "140 m4a audio only 128k" "audio only" ∧
      d140.is_video = !d140.is_audio ∧
      ¬(d140.is_video = true ∧ d140.is_audio = true) :=
  c6_audio_video_flags "140 m4a audio only 128k" d140 rfl

/-- C7: the claim says one bad line never prevents the rest of the
listing from being used.  Skipping of header, informational-log and blank
lines and the dropping of under-3-token lines do work that way (second
conjunct), but a line whose first size-unit token sits among its first
three tokens makes the parse panic and aborts the whole listing, so the
well-formed lines around it are lost (first conjunct). -/
theorem c7_bad_line_aborts_listing :
    parse_available_formats
        "ID EXT NOTE\n[info] listing\n\n140 m4a audio only 128k\nx y MiB\n299 mp4 1920x1080 2500k" =
      Except.error "slice index out of range" ∧
      parse_available_formats
          "ID EXT NOTE\n[info] listing\n\nab cd\n140 m4a audio only 128k\n299 mp4 1920x1080 2500k" =
        Except.ok [d140, d299] := by
  exact ⟨rfl, rfl⟩

/-- C8 counterexample: the claim says a size string is produced exactly
when a unit-marker token is preceded by a numeric token.  The code never
checks the preceding token for numerals: on "140 m4a foo MiB" it yields
the size string "foo MiB", while the claim's own rule (spec_filesize)
yields none. -/
theorem c8_counterexample :
    parse_format_line "140 m4a foo MiB" = Except.ok (some d8) ∧
      d8.filesize = some "foo MiB" ∧
      spec_filesize (splitWhitespace "140 m4a foo MiB") = none := by
  exact ⟨rfl, rfl, rfl⟩

/-- C8 amended: a size string is produced exactly when the first token
equal to one of KiB/MiB/GiB exists at a nonzero index; it is the
immediately preceding token — numeric or not — with leading
approximation markers stripped, joined with the unit by a space.
Adjacent tokens "100.5" "MiB" still yield "100.5 MiB", and a leading
approximation marker is stripped. -/
theorem c8_filesize_amended (line : String) (d : FormatOption)
    (h : parse_format_line line = Except.ok (some d)) :
    (d.filesize =
      (match (splitWhitespace line).findIdx? isUnitTok with
       | some p =>
         if p > 0 then
           some (stripApprox ((splitWhitespace line).getD (p - 1) "") ++ " " ++
             (splitWhitespace line).getD p "")
         else none
       | none => none)) ∧
      parsedFilesize "140 m4a info 100.5 MiB" = some "100.5 MiB" ∧
      parsedFilesize "140 m4a info ~100.5 MiB" = some "100.5 MiB" := by
  exact ⟨(parse_ok_eq h).2.2.2.2.2, rfl, rfl⟩

/-- Witness for the amended C8 at the line "140 m4a foo MiB". -/
theorem c8_filesize_amended_witness :
    (d8.filesize =
      (match (splitWhitespace "140 m4a foo MiB").findIdx? isUnitTok with
       | some p =>
         if p > 0 then
           some (stripApprox ((splitWhitespace "140 m4a foo MiB").getD (p - 1) "") ++ " " ++
             (splitWhitespace "140 m4a foo MiB").getD p "")
         else none
       | none => none)) ∧
      parsedFilesize "140 m4a info 100.5 MiB" = some "100.5 MiB" ∧
      parsedFilesize "140 m4a info ~100.5 MiB" = some "100.5 MiB" :=
  c8_filesize_amended "140 m4a foo MiB" d8 rfl

/-- C10: resolution parsing consults only the first token containing the
character x.  If splitting that token at x yields no parsable integer in
position 1, the descriptor has no resolution, regardless of any
well-formed WxH token further right.  At the concrete line
"137 mp4 avx_hd 1920x1080 2500k" the codec-like token suppresses the
resolution even though "1920x1080" alone would parse to 1080, as it does
once the codec-like token is removed. -/
theorem c10_resolution_first_x_token (line : String) (d : FormatOption) (t : String)
    (h : parse_format_line line = Except.ok (some d))
    (hfind : (splitWhitespace line).find? (fun p => p.toList.contains 'x') = some t)
    (hno : ((splitChar 'x' t).get? 1).bind parseU32 = none) :
    d.resolution = none ∧
      parsedResolution "137 mp4 avx_hd 1920x1080 2500k" = some none ∧
      ((splitChar 'x' "1920x1080").get? 1).bind parseU32 = some 1080 ∧
      parsedResolution "137 mp4 1920x1080 2500k" = some (some 1080) := by
  obtain ⟨-, -, hr, -, -, -⟩ := parse_ok_eq h
  refine ⟨?_, rfl, rfl, rfl⟩
  rw [hr, hfind]
  exact hno

/-- A helper: searching a list that decomposes as a prefix of
non-matching elements, a matching element, and a remainder finds that
element. -/
theorem find?_append_first {α : Type} {p : α → Bool} :
    ∀ (l₁ : List α) (f : α) (l₂ : List α), p f = true → (∀ g ∈ l₁, p g = false) →
      (l₁ ++ f :: l₂).find? p = some f := by
  intro l₁
  induction l₁ with
  | nil =>
    intro f l₂ hf _
    rw [List.nil_append]
    exact List.find?_cons_of_pos _ hf
  | cons g gs ih =>
    intro f l₂ hf hno
    rw [List.cons_append, List.find?_cons_of_neg _ (by simp [hno g (List.mem_cons_self g gs)])]
    exact ih f l₂ hf (fun x hx => hno x (List.mem_cons_of_mem _ hx))

/-- C9: best-audio selection returns the first audio descriptor whose
extension equals "m4a" when one exists, and otherwise the first audio
descriptor in listing order; on the audio set with ids 140 (m4a) and 251
(webm) it returns the m4a entry regardless of the order of the two. -/
theorem c9_best_audio_selection :
    (∀ (l₁ l₂ : List FormatOption) (f : FormatOption),
        f.extension = "m4a" → (∀ g ∈ l₁, g.extension ≠ "m4a") →
          best_audio (l₁ ++ f :: l₂) = some f) ∧
      (∀ l : List FormatOption, (∀ g ∈ l, g.extension ≠ "m4a") →
        best_audio l = l.head?) ∧
      best_audio [d140, d251] = some d140 ∧
      best_audio [d251, d140] = some d140 ∧
      d140.extension = "m4a" ∧ d140.id = "140" := by
  refine ⟨?_, ?_, rfl, rfl, rfl, rfl⟩
  · intro l₁ l₂ f hf hno
    have hfind : (l₁ ++ f :: l₂).find? (fun f => f.extension == "m4a") = some f :=
      find?_append_first l₁ f l₂ (by simp [hf]) (fun g hg => by simp [hno g hg])
    simp only [best_audio]
    rw [hfind]
    rfl
  · intro l hno
    have hfind : l.find? (fun f => f.extension == "m4a") = none :=
      List.find?_eq_none.mpr (fun x hx => by simp [hno x hx])
    simp only [best_audio]
    rw [hfind]
    rfl

/-- Witness for C9: the webm entry first, the m4a entry second; the m4a
entry is still chosen. -/
theorem c9_best_audio_selection_witness :
    best_audio ([d251] ++ d140 :: []) = some d140 :=
  c9_best_audio_selection.1 [d251] [] d140 rfl (by decide)

/-- A max-by-key result is a member of the searched list. -/
theorem maxByKeyLast_mem {key : FormatOption → Nat} :
    ∀ {l : List FormatOption} {m : FormatOption}, maxByKeyLast key l = some m → m ∈ l := by
  intro l
  induction l with
  | nil => intro m h; cases h
  | cons x xs ih =>
    intro m h
    simp only [maxByKeyLast] at h
    cases hx : maxByKeyLast key xs with
    | none =>
      simp only [hx] at h
      injection h with h
      exact h ▸ List.mem_cons_self x xs
    | some m2 =>
      simp only [hx] at h
      by_cases hk : key x > key m2
      · rw [if_pos hk] at h
        injection h with h
        exact h ▸ List.mem_cons_self x xs
      · rw [if_neg hk] at h
        injection h with h
        exact h ▸ List.mem_cons_of_mem x (ih hx)

/-- A nonempty list always has a max-by-key result. -/
theorem maxByKeyLast_cons_isSome (key : FormatOption → Nat) (a : FormatOption)
    (as : List FormatOption) : ∃ m, maxByKeyLast key (a :: as) = some m := by
  cases hx : maxByKeyLast key as with
  | none => exact ⟨a, by simp [maxByKeyLast, hx]⟩
  | some m2 =>
    by_cases hk : key a > key m2
    · exact ⟨a, by simp [maxByKeyLast, hx, hk]⟩
    · exact ⟨m2, by simp [maxByKeyLast, hx, hk]⟩

/-- A max-by-key result has a key at least as large as every member's. -/
theorem maxByKeyLast_le {key : FormatOption → Nat} :
    ∀ {l : List FormatOption} {m : FormatOption}, maxByKeyLast key l = some m →
      ∀ y ∈ l, key y ≤ key m := by
  intro l
  induction l with
  | nil => intro m h; cases h
  | cons x xs ih =>
    intro m h y hy
    simp only [maxByKeyLast] at h
    cases hx : maxByKeyLast key xs with
    | none =>
      simp only [hx] at h
      injection h with h
      subst h
      cases xs with
      | nil =>
        rw [List.mem_singleton] at hy
        exact hy ▸ Nat.le_refl _
      | cons a as =>
        obtain ⟨m2, hm2⟩ := maxByKeyLast_cons_isSome key a as
        rw [hm2] at hx
        cases hx
    | some m2 =>
      simp only [hx] at h
      rcases List.mem_cons.mp hy with hyx | hyxs
      · subst hyx
        by_cases hk : key y > key m2
        · rw [if_pos hk] at h
          injection h with h
          exact h ▸ Nat.le_refl _
        · rw [if_neg hk] at h
          injection h with h
          exact h ▸ Nat.le_of_not_lt hk
      · have hle : key y ≤ key m2 := ih hx y hyxs
        by_cases hk : key x > key m2
        · rw [if_pos hk] at h
          injection h with h
          exact h ▸ Nat.le_trans hle (Nat.le_of_lt hk)
        · rw [if_neg hk] at h
          injection h with h
          exact h ▸ hle

/-- Membership after an ordered key insertion. -/
theorem mem_insertKey {k k' : Option Nat} :
    ∀ {ks : List (Option Nat)}, k ∈ insertKey k' ks ↔ k = k' ∨ k ∈ ks := by
  intro ks
  induction ks with
  | nil => simp [insertKey]
  | cons x xs ih =>
    cases h1 : optLt k' x with
    | true => simp [insertKey, h1, List.mem_cons]
    | false =>
      by_cases h2 : k' = x
      · subst h2
        simp [insertKey, h1, List.mem_cons]
      · simp [insertKey, h1, h2, List.mem_cons, ih]
        tauto

/-- Membership in the folded key set. -/
theorem mem_foldl_insertKey (vids : List FormatOption) :
    ∀ (acc : List (Option Nat)) (k : Option Nat),
      k ∈ vids.foldl (fun ks f => insertKey f.resolution ks) acc ↔
        k ∈ acc ∨ ∃ f ∈ vids, f.resolution = k := by
  induction vids with
  | nil => intro acc k; simp
  | cons v vs ih =>
    intro acc k
    rw [List.foldl_cons, ih (insertKey v.resolution acc) k, mem_insertKey]
    simp only [List.mem_cons]
    constructor
    · rintro ((h | h) | ⟨f, hf, hr⟩)
      · exact Or.inr ⟨v, Or.inl rfl, h.symm⟩
      · exact Or.inl h
      · exact Or.inr ⟨f, Or.inr hf, hr⟩
    · rintro (h | ⟨f, (hf | hf), hr⟩)
      · exact Or.inl (Or.inr h)
      · exact Or.inl (Or.inl (hf ▸ hr.symm))
      · exact Or.inr ⟨f, hf, hr⟩

/-- A key occurs in the grouping map exactly when some video descriptor
has it as its resolution. -/
theorem mem_videoResolutionKeys {vids : List FormatOption} {k : Option Nat} :
    k ∈ videoResolutionKeys vids ↔ ∃ f ∈ vids, f.resolution = k := by
  rw [videoResolutionKeys, mem_foldl_insertKey]
  simp

/-- Membership after a descending insertion. -/
theorem mem_insertDesc {x y : Nat × FormatOption} :
    ∀ {l : List (Nat × FormatOption)}, x ∈ insertDesc y l ↔ x = y ∨ x ∈ l := by
  intro l
  induction l with
  | nil => simp [insertDesc]
  | cons z zs ih =>
    simp only [insertDesc]
    by_cases h1 : y.1 ≥ z.1
    · simp [h1, List.mem_cons]
    · simp only [h1, if_false, List.mem_cons, ih]
      tauto

/-- Sorting is membership-preserving. -/
theorem mem_sortDesc {x : Nat × FormatOption} :
    ∀ {l : List (Nat × FormatOption)}, x ∈ sortDesc l ↔ x ∈ l := by
  intro l
  induction l with
  | nil => simp [sortDesc]
  | cons z zs ih =>
    simp only [sortDesc, List.foldr_cons] at ih ⊢
    rw [mem_insertDesc, ih, List.mem_cons]

/-- Descending insertion preserves descending order. -/
theorem pairwise_insertDesc (x : Nat × FormatOption) :
    ∀ {l : List (Nat × FormatOption)}, l.Pairwise (fun a b => b.1 ≤ a.1) →
      (insertDesc x l).Pairwise (fun a b => b.1 ≤ a.1) := by
  intro l
  induction l with
  | nil => intro _; simp [insertDesc]
  | cons y ys ih =>
    intro h
    obtain ⟨hy, hys⟩ := List.pairwise_cons.mp h
    simp only [insertDesc]
    by_cases h1 : x.1 ≥ y.1
    · rw [if_pos h1]
      refine List.pairwise_cons.mpr ⟨?_, h⟩
      intro z hz
      rcases List.mem_cons.mp hz with hzy | hzys
      · exact hzy ▸ h1
      · exact Nat.le_trans (hy z hzys) h1
    · rw [if_neg h1]
      refine List.pairwise_cons.mpr ⟨?_, ih hys⟩
      intro z hz
      rcases mem_insertDesc.mp hz with hzx | hzys
      · exact hzx ▸ Nat.le_of_lt (Nat.lt_of_not_le h1)
      · exact hy z hzys

/-- The result of the descending sort is descending. -/
theorem sortDesc_pairwise (l : List (Nat × FormatOption)) :
    (sortDesc l).Pairwise (fun a b => b.1 ≤ a.1) := by
  induction l with
  | nil => simp [sortDesc]
  | cons z zs ih =>
    simp only [sortDesc, List.foldr_cons] at ih ⊢
    exact pairwise_insertDesc z ih

/-- Membership in the raw mp4 menu list, characterized by the grouping
key set and the per-group max-by-key selection. -/
theorem mem_mp4FormatsRaw {fmts : List FormatOption} {r : Nat} {f : FormatOption} :
    (r, f) ∈ mp4FormatsRaw fmts ↔
      some r ∈ videoResolutionKeys (videoFormatsOf fmts) ∧
        maxByKeyLast bitrateKey (mp4Group (resGroup fmts r)) = some f := by
  simp only [mp4FormatsRaw, video_resolutions, List.mem_filterMap, List.mem_map]
  constructor
  · rintro ⟨e, ⟨k, hk, rfl⟩, he⟩
    cases k with
    | none => cases he
    | some r0 =>
      simp only [Option.some_bind] at he
      cases hm : maxByKeyLast bitrateKey
          (mp4Group ((videoFormatsOf fmts).filter (fun f => f.resolution == some r0))) with
      | none => rw [hm] at he; cases he
      | some f0 =>
        rw [hm] at he
        simp only [Option.map_some', Option.some.injEq, Prod.mk.injEq] at he
        obtain ⟨hr, hf⟩ := he
        subst hr
        subst hf
        exact ⟨hk, by simp only [resGroup]; exact hm⟩
  · rintro ⟨hk, hm⟩
    refine ⟨(some r, (videoFormatsOf fmts).filter (fun f => f.resolution == some r)),
      ⟨some r, hk, rfl⟩, ?_⟩
    simp only [Option.some_bind]
    simp only [resGroup] at hm
    rw [hm]
    rfl

/-- C4: every video quality menu entry is the best-bitrate mp4 descriptor
of its resolution group; a resolution survives into the pre-truncation
list exactly when its group has an mp4 member; the menu is sorted by
resolution descending and holds at most 5 entries; and the raw heights
1080, 1080, 720, 480, 360, 240, 144 collapse to the menu resolutions
1080, 720, 480, 360, 240 in that order. -/
theorem c4_video_quality_menu :
    (∀ (fmts : List FormatOption) (r : Nat) (f : FormatOption),
        (r, f) ∈ mp4Menu fmts →
          f ∈ mp4Group (resGroup fmts r) ∧
            ∀ g ∈ mp4Group (resGroup fmts r), bitrateKey g ≤ bitrateKey f) ∧
      (∀ (fmts : List FormatOption) (r : Nat),
        r ∈ (mp4FormatsRaw fmts).map Prod.fst ↔ mp4Group (resGroup fmts r) ≠ []) ∧
      (∀ fmts : List FormatOption, (mp4Menu fmts).Pairwise (fun a b => b.1 ≤ a.1)) ∧
      (∀ fmts : List FormatOption, (mp4Menu fmts).length ≤ 5) ∧
      (mp4Menu exHeights).map Prod.fst = [1080, 720, 480, 360, 240] := by
  refine ⟨?_, ?_, ?_, ?_, rfl⟩
  · intro fmts r f hmem
    have hraw : (r, f) ∈ mp4FormatsRaw fmts :=
      mem_sortDesc.mp (List.take_subset 5 _ hmem)
    obtain ⟨-, hm⟩ := mem_mp4FormatsRaw.mp hraw
    exact ⟨maxByKeyLast_mem hm, maxByKeyLast_le hm⟩
  · intro fmts r
    constructor
    · intro h
      obtain ⟨⟨a, b⟩, hab, hfst⟩ := List.mem_map.mp h
      obtain ⟨-, hm⟩ := mem_mp4FormatsRaw.mp (show (r, b) ∈ mp4FormatsRaw fmts from hfst ▸ hab)
      exact List.ne_nil_of_mem (maxByKeyLast_mem hm)
    · intro hne
      obtain ⟨g, hg⟩ := List.exists_mem_of_ne_nil _ hne
      have hgrp := List.mem_filter.mp hg
      have hres := List.mem_filter.mp hgrp.1
      have hkey : some r ∈ videoResolutionKeys (videoFormatsOf fmts) :=
        mem_videoResolutionKeys.mpr ⟨g, hres.1, by simpa using hres.2⟩
      cases hcase : mp4Group (resGroup fmts r) with
      | nil => exact absurd hcase hne
      | cons a as =>
        obtain ⟨m, hm⟩ := maxByKeyLast_cons_isSome bitrateKey a as
        have : (r, m) ∈ mp4FormatsRaw fmts :=
          mem_mp4FormatsRaw.mpr ⟨hkey, by rw [hcase]; exact hm⟩
        exact List.mem_map.mpr ⟨(r, m), this, rfl⟩
  · intro fmts
    exact List.Pairwise.sublist (List.take_sublist 5 _) (sortDesc_pairwise _)
  · intro fmts
    exact List.length_take_le 5 (sortDesc (mp4FormatsRaw fmts))

/-- Witness for C4 at the seven-descriptor example: the chosen 1080p
entry is the higher-bitrate mp4 descriptor of the 1080 group, and the
144 group, although truncated away, does have an mp4 member. -/
theorem c4_video_quality_menu_witness :
    (mkVid 1080 "b" "2000k" ∈ mp4Group (resGroup exHeights 1080) ∧
        ∀ g ∈ mp4Group (resGroup exHeights 1080),
          bitrateKey g ≤ bitrateKey (mkVid 1080 "b" "2000k")) ∧
      mp4Group (resGroup exHeights 144) ≠ [] :=
  ⟨c4_video_quality_menu.1 exHeights 1080 (mkVid 1080 "b" "2000k") (by decide),
    (c4_video_quality_menu.2.1 exHeights 144).mp (by decide)⟩

/-- Every run of `download_media` either makes no download attempt at
all, or consists of a download-free prefix followed exactly by the
primary/retry block with the branch's fixed retry spec and failure
message. -/
theorem dmTrace_shape (tool : Bool) (ft : String) (u : UserSel) (s1 s2 : Bool) :
    (downloadMediaTrace tool ft u s1 s2).1.filter isDl = [] ∨
      ∃ pre fmt,
        (downloadMediaTrace tool ft u s1 s2).1 =
            pre ++ (runWithRetry fmt (retryFmtFor u) (failMsgFor u) s1 s2).1 ∧
          pre.filter isDl = [] ∧
          (downloadMediaTrace tool ft u s1 s2).2 =
            (runWithRetry fmt (retryFmtFor u) (failMsgFor u) s1 s2).2 := by
  by_cases htool : tool = false
  · left
    simp [isDl, downloadMediaTrace, htool]
  · cases hparse : parse_available_formats ft with
    | error m =>
      left
      simp [isDl, downloadMediaTrace, htool, hparse]
    | ok parsed =>
      by_cases htype : u.typeSel = 0
      · cases hba : bestAudioOrPanic (audioFormatsOf parsed) with
        | error m =>
          left
          simp [isDl, downloadMediaTrace, htool, hparse, htype, hba]
        | ok bestA =>
          by_cases hmenu : (mp4Menu parsed).isEmpty = true
          · left
            simp [isDl, downloadMediaTrace, htool, hparse, htype, hba, hmenu]
          · right
            refine ⟨[Ev.depCheck, Ev.procList, Ev.promptType, Ev.promptQuality],
              ((mp4Menu parsed).getD u.qualSel (0, dummyFmt)).2.id ++ "+" ++ bestA.id,
              ?_, rfl, ?_⟩ <;>
              simp [isDl, downloadMediaTrace, htool, hparse, htype, hba, hmenu,
                retryFmtFor, failMsgFor]
      · by_cases hlt : u.audioSel < 5 ∧ u.audioSel < (audioFormatsOf parsed).length
        · right
          refine ⟨[Ev.depCheck, Ev.procList, Ev.promptType, Ev.promptAudio],
            (((audioFormatsOf parsed).take 5).getD u.audioSel dummyFmt).id, ?_, rfl, ?_⟩ <;>
            simp [isDl, downloadMediaTrace, htool, hparse, htype, hlt, retryFmtFor, failMsgFor]
        · by_cases heq5 : u.audioSel = 5 ⊓ (audioFormatsOf parsed).length
          · right
            refine ⟨[Ev.depCheck, Ev.procList, Ev.promptType, Ev.promptAudio],
              "bestaudio", ?_, rfl, ?_⟩ <;>
              simp [isDl, downloadMediaTrace, htool, hparse, htype, hlt, heq5,
                retryFmtFor, failMsgFor]
          · right
            refine ⟨[Ev.depCheck, Ev.procList, Ev.promptType, Ev.promptAudio,
              Ev.promptCustom], u.customFmt, ?_, rfl, ?_⟩ <;>
              simp [isDl, downloadMediaTrace, htool, hparse, htype, hlt, heq5,
                retryFmtFor, failMsgFor]

/-- C3: in every run, at most two download attempts are made; when the
primary attempt succeeds it is the only one; when it fails, the attempt
list is exactly the primary followed by one retry with the branch's
broadened format spec, and if the retry also fails the run ends in the
branch's terminal download-failure error.  No execution makes a third
attempt. -/
theorem c3_single_retry (tool : Bool) (ft : String) (u : UserSel) (s1 s2 : Bool) :
    ((downloadMediaTrace tool ft u s1 s2).1.filter isDl).length ≤ 2 ∧
      (∀ fmt : String, Ev.procDownload fmt ∈ (downloadMediaTrace tool ft u s1 s2).1 →
        s1 = true →
          (downloadMediaTrace tool ft u s1 s2).1.filter isDl = [Ev.procDownload fmt]) ∧
      (∀ fmt : String, Ev.procDownload fmt ∈ (downloadMediaTrace tool ft u s1 s2).1 →
        s1 = false →
          (downloadMediaTrace tool ft u s1 s2).1.filter isDl =
              [Ev.procDownload fmt, Ev.procRetry (retryFmtFor u)] ∧
            (s2 = false →
              (downloadMediaTrace tool ft u s1 s2).2 = Outcome.err (failMsgFor u))) := by
  rcases dmTrace_shape tool ft u s1 s2 with hnil | ⟨pre, fmt0, hev, hpre, hout⟩
  · refine ⟨by rw [hnil]; exact Nat.zero_le 2, ?_, ?_⟩
    · intro fmt hmem _
      exact absurd (hnil ▸ List.mem_filter.mpr ⟨hmem, rfl⟩) (List.not_mem_nil _)
    · intro fmt hmem _
      exact absurd (hnil ▸ List.mem_filter.mpr ⟨hmem, rfl⟩) (List.not_mem_nil _)
  · have hfilter : (downloadMediaTrace tool ft u s1 s2).1.filter isDl =
        (runWithRetry fmt0 (retryFmtFor u) (failMsgFor u) s1 s2).1 := by
      rw [hev, List.filter_append, hpre, List.nil_append]
      cases s1 <;> cases s2 <;> simp [runWithRetry, isDl]
    have hmemf : ∀ fmt : String,
        Ev.procDownload fmt ∈ (downloadMediaTrace tool ft u s1 s2).1 → fmt = fmt0 := by
      intro fmt hmem
      rw [hev] at hmem
      rcases List.mem_append.mp hmem with hin | hin
      · exact absurd (hpre ▸ List.mem_filter.mpr ⟨hin, rfl⟩) (List.not_mem_nil _)
      · cases s1 <;> cases s2 <;> simp [runWithRetry] at hin <;> exact hin
    refine ⟨?_, ?_, ?_⟩
    · rw [hfilter]
      cases s1 <;> cases s2 <;> simp [runWithRetry]
    · intro fmt hmem hs1
      subst hs1
      rw [hfilter, hmemf fmt hmem]
      cases s2 <;> simp [runWithRetry]
    · intro fmt hmem hs1
      subst hs1
      refine ⟨?_, ?_⟩
      · rw [hfilter, hmemf fmt hmem]
        cases s2 <;> simp [runWithRetry]
      · intro hs2
        subst hs2
        rw [hout]
        simp [runWithRetry]

/-- Witness for C3: the end-to-end listing, the Video choice, and both
attempts failing; the attempt list is the primary "299+140" invocation
followed by the broadened retry, and the run ends in the terminal
download-failure error. -/
theorem c3_single_retry_witness :
    (downloadMediaTrace true exListing
          { typeSel := 0, qualSel := 0, audioSel := 0, customFmt := "" } false false).1.filter
        isDl =
        [Ev.procDownload "299+140",
          Ev.procRetry (retryFmtFor { typeSel := 0, qualSel := 0, audioSel := 0, customFmt := "" })] ∧
      (false = false →
        (downloadMediaTrace true exListing
            { typeSel := 0, qualSel := 0, audioSel := 0, customFmt := "" } false false).2 =
          Outcome.err (failMsgFor { typeSel := 0, qualSel := 0, audioSel := 0, customFmt := "" })) :=
  (c3_single_retry true exListing
      { typeSel := 0, qualSel := 0, audioSel := 0, customFmt := "" } false false).2.2
    "299+140" (by decide) rfl

/-- Witness for C10 at the line "137 mp4 avx_hd 1920x1080 2500k". -/
theorem c10_resolution_first_x_token_witness :
    dCodec.resolution = none ∧
      parsedResolution "137 mp4 avx_hd 1920x1080 2500k" = some none ∧
      ((splitChar 'x' "1920x1080").get? 1).bind parseU32 = some 1080 ∧
      parsedResolution "137 mp4 1920x1080 2500k" = some (some 1080) :=
  c10_resolution_first_x_token "137 mp4 avx_hd 1920x1080 2500k" dCodec "avx_hd" rfl rfl rfl

/-- Every `download_media` trace begins with the dependency check. -/
theorem dmTrace_starts_depCheck (tool : Bool) (ft : String) (u : UserSel) (s1 s2 : Bool) :
    ∃ t, (downloadMediaTrace tool ft u s1 s2).1 = Ev.depCheck :: t := by
  by_cases htool : tool = false
  · exact ⟨[], by simp [downloadMediaTrace, htool]⟩
  · cases hparse : parse_available_formats ft with
    | error m => exact ⟨[Ev.procList], by simp [downloadMediaTrace, htool, hparse]⟩
    | ok parsed =>
      by_cases htype : u.typeSel = 0
      · cases hba : bestAudioOrPanic (audioFormatsOf parsed) with
        | error m =>
          exact ⟨[Ev.procList, Ev.promptType], by simp [downloadMediaTrace, htool, hparse, htype, hba]⟩
        | ok bestA =>
          by_cases hmenu : (mp4Menu parsed).isEmpty = true
          · exact ⟨[Ev.procList, Ev.promptType],
              by simp [downloadMediaTrace, htool, hparse, htype, hba, hmenu]⟩
          · exact ⟨[Ev.procList, Ev.promptType, Ev.promptQuality] ++
              (runWithRetry (((mp4Menu parsed).getD u.qualSel (0, dummyFmt)).2.id ++ "+" ++
                bestA.id) videoRetryFmt vidFailMsg s1 s2).1,
              by simp [downloadMediaTrace, htool, hparse, htype, hba, hmenu]⟩
      · by_cases hlt : u.audioSel < 5 ∧ u.audioSel < (audioFormatsOf parsed).length
        · exact ⟨[Ev.procList, Ev.promptType, Ev.promptAudio] ++
            (runWithRetry (((audioFormatsOf parsed).take 5).getD u.audioSel dummyFmt).id
              audioRetryFmt audFailMsg s1 s2).1,
            by simp [downloadMediaTrace, htool, hparse, htype, hlt]⟩
        · by_cases heq5 : u.audioSel = 5 ⊓ (audioFormatsOf parsed).length
          · exact ⟨[Ev.procList, Ev.promptType, Ev.promptAudio] ++
              (runWithRetry "bestaudio" audioRetryFmt audFailMsg s1 s2).1,
              by simp [downloadMediaTrace, htool, hparse, htype, hlt, heq5]⟩
          · exact ⟨[Ev.procList, Ev.promptType, Ev.promptAudio, Ev.promptCustom] ++
              (runWithRetry u.customFmt audioRetryFmt audFailMsg s1 s2).1,
              by simp [downloadMediaTrace, htool, hparse, htype, hlt, heq5]⟩

/-- C5 counterexample: the claim says the dependency check precedes every
other action.  With no URL and no output directory given on the command
line, the URL prompt, the directory-selection prompt and the output
directory creation all happen strictly before the dependency check, so
the actions preceding the check are not action-free. -/
theorem c5_depcheck_counterexample :
    (((mainTrace false false true ""
            { typeSel := 1, qualSel := 0, audioSel := 0, customFmt := "" } true true).1.takeWhile
          (fun e => e != Ev.depCheck)).all fun e => !isActionEv e) = false ∧
      Ev.promptUrl ∈
        ((mainTrace false false true ""
            { typeSel := 1, qualSel := 0, audioSel := 0, customFmt := "" } true true).1.takeWhile
          (fun e => e != Ev.depCheck)) ∧
      Ev.promptDir ∈
        ((mainTrace false false true ""
            { typeSel := 1, qualSel := 0, audioSel := 0, customFmt := "" } true true).1.takeWhile
          (fun e => e != Ev.depCheck)) ∧
      Ev.createDir ∈
        ((mainTrace false false true ""
            { typeSel := 1, qualSel := 0, audioSel := 0, customFmt := "" } true true).1.takeWhile
          (fun e => e != Ev.depCheck)) := by
  refine ⟨rfl, ?_, ?_, ?_⟩ <;> decide

/-- C5 amended: within `download_media` the dependency check is the first
action, preceding the format-listing call, all download-type and quality
prompts, and every subprocess invocation; the only actions that precede
it in a whole run of `main` are the URL prompt, the directory prompt, and
the output-directory creation; and when the tool is absent the run ends
in the clearly messaged fatal error with no subprocess ever invoked. -/
theorem c5_depcheck_amended (ug dg tool : Bool) (ft : String) (u : UserSel) (s1 s2 : Bool) :
    (((mainTrace ug dg tool ft u s1 s2).1.takeWhile (fun e => e != Ev.depCheck)).all
        preDepEv) = true ∧
      (downloadMediaTrace tool ft u s1 s2).1.head? = some Ev.depCheck ∧
      (mainTrace ug dg false ft u s1 s2).2 = Outcome.err "yt-dlp not found" ∧
      ((mainTrace ug dg false ft u s1 s2).1.all fun e => !isProc e) = true := by
  obtain ⟨t, ht⟩ := dmTrace_starts_depCheck tool ft u s1 s2
  have hdm : downloadMediaTrace false ft u s1 s2 =
      ([Ev.depCheck], Outcome.err "yt-dlp not found") := rfl
  refine ⟨?_, ?_, ?_, ?_⟩
  · cases ug <;> cases dg <;>
      (simp [mainTrace, ht, List.takeWhile, preDepEv]) <;> decide
  · rw [ht]
    rfl
  · simp [mainTrace, hdm]
  · cases ug <;> cases dg <;> simp [mainTrace, hdm, isProc]

end TDownloader
